import Mathlib

/-!
Verification development for the paper-verification engine
(`mcp_paper_verification/verifier.py`).  The Python source is shallowly
embedded: text is `List Char`, each analyzer is a total Lean function
mirroring the source line by line, and the filesystem / network effects
are passed in as explicit oracle values.  Unicode character classes used
by Python's `str.strip`, `str.isspace` and the regex class `\s` are
modelled by an explicit character list; the regex classes `[a-zA-Z]`,
`[0-9]`, `\d` and `\w` are modelled over their ASCII members (the inputs
exercised by the claims are ASCII or CJK text where the two notions
agree).
-/

namespace PaperVerification

/-- Whitespace as Python's `str.strip` / `str.isspace` / regex `\s` see it:
ASCII whitespace plus the Unicode space characters (given by code point). -/
def pyIsSpace (c : Char) : Bool :=
  c.toNat ∈ [0x9, 0xA, 0xB, 0xC, 0xD, 0x1C, 0x1D, 0x1E, 0x1F, 0x20, 0x85, 0xA0,
    0x1680, 0x2000, 0x2001, 0x2002, 0x2003, 0x2004, 0x2005, 0x2006, 0x2007,
    0x2008, 0x2009, 0x200A, 0x2028, 0x2029, 0x202F, 0x205F, 0x3000]

/-- Decimal digits (regex `\d`, ASCII part). -/
def pyIsDigit (c : Char) : Bool := c.isDigit

/-- Word characters for the regex word boundary `\b` (regex `\w`, ASCII part). -/
def isWordChar (c : Char) : Bool := c.isAlpha || c.isDigit || c = '_'

/-- Python `s.split(sep)` for a one-character separator: splits at every
occurrence, keeping empty pieces. -/
def splitOnChar (sep : Char) : List Char → List (List Char)
  | [] => [[]]
  | c :: rest =>
    match splitOnChar sep rest with
    | [] => [[]]
    | h :: t => if c = sep then [] :: h :: t else (c :: h) :: t

/-- Python `s.split('\n')`. -/
def splitOnNl (l : List Char) : List (List Char) := splitOnChar '\n' l

/-- Python `s.split('\n\n')`: left-to-right, non-overlapping cuts at the
two-character separator. -/
def splitOnNlNl : List Char → List (List Char)
  | '\n' :: '\n' :: rest => [] :: splitOnNlNl rest
  | c :: rest =>
    match splitOnNlNl rest with
    | [] => [[]]
    | h :: t => (c :: h) :: t
  | [] => [[]]

/-- Python `s.strip()`. -/
def pyStrip (l : List Char) : List Char :=
  ((l.dropWhile pyIsSpace).reverse.dropWhile pyIsSpace).reverse

/-- Python `needle in hay` on strings (substring containment). -/
def containsSub (needle hay : List Char) : Bool :=
  hay.tails.any (fun t => needle.isPrefixOf t)

/-- Python `'\n'.join(parts)`. -/
def joinNl : List (List Char) → List Char
  | [] => []
  | [x] => x
  | x :: y :: t => x ++ '\n' :: joinNl (y :: t)

/-- Python `s.isdigit()` (ASCII part): non-empty and all digits. -/
def pyIsDigitStr (l : List Char) : Bool :=
  decide (l ≠ []) && l.all pyIsDigit

/-- Python `enumerate(lines, 1)` applied to `content.split('\n')`. -/
def enumLines (content : List Char) : List (Nat × List Char) :=
  (splitOnNl content).enumFrom 1

/-- One attempted match of the image regex `!\[([^\]]*)\]\([^)]+\)` at the
head of `l`: returns `(alt, url, rest-after-match)` on success.  The
character classes `[^\]]` and `[^)]` cannot cross their closing delimiter,
so the greedy match is exactly the maximal run. -/
def imageMatchAt (l : List Char) : Option (List Char × List Char × List Char) :=
  match l with
  | '!' :: '[' :: rest =>
    let alt := rest.takeWhile (fun c => c ≠ ']')
    match rest.drop alt.length with
    | ']' :: '(' :: rest2 =>
      let url := rest2.takeWhile (fun c => c ≠ ')')
      match url, rest2.drop url.length with
      | _ :: _, ')' :: rest3 => some (alt, url, rest3)
      | _, _ => none
    | _ => none
  | _ => none

/-- One attempted match of the citation regex `\[@([^\]]+)\]` at the head of
`l`: returns the captured key (without brackets or `@`) and the rest. -/
def citeMatchAt (l : List Char) : Option (List Char × List Char) :=
  match l with
  | '[' :: '@' :: rest =>
    let key := rest.takeWhile (fun c => c ≠ ']')
    match key, rest.drop key.length with
    | _ :: _, ']' :: rest2 => some (key, rest2)
    | _, _ => none
  | _ => none

/-- One attempted match of `\[(?!@)[^\]]*\]` at the head of `l`.  The pattern
has no capture group, so — exactly as Python's `re.findall` does — the FULL
matched text, brackets included, is returned as the payload. -/
def nonAtMatchAt (l : List Char) : Option (List Char × List Char) :=
  match l with
  | '[' :: rest =>
    if (match rest with | '@' :: _ => true | _ => false) then none
    else
      let span := rest.takeWhile (fun c => c ≠ ']')
      match rest.drop span.length with
      | ']' :: rest2 => some ('[' :: span ++ [']'], rest2)
      | _ => none
  | _ => none

/-- Left-to-right, non-overlapping regex scan (the behaviour of `re.findall`
and `re.finditer`): try the matcher at each position; on success emit its
payload and resume after the match; on failure advance one character.
Structured on a fuel argument so that the definition is structurally
recursive; `fuel = l.length` always suffices because every successful match
consumes at least one character. -/
def scanF {β : Type} (m : List Char → Option (β × List Char)) :
    Nat → List Char → List β
  | _, [] => []
  | 0, _ => []
  | fuel + 1, c :: rest =>
    match m (c :: rest) with
    | some (p, r) => p :: scanF m fuel r
    | none => scanF m fuel rest

/-- Run a regex scan over the whole of `l`. -/
def scan {β : Type} (m : List Char → Option (β × List Char)) (l : List Char) : List β :=
  scanF m l.length l

/-- `re.findall(r'\[@([^\]]+)\]', content)`. -/
def findCitations (content : List Char) : List (List Char) :=
  scan citeMatchAt content

/-- `re.findall(r'\[(?!@)[^\]]*\]', content)` — returns full matches,
brackets included (group-less pattern). -/
def findNonAtBrackets (content : List Char) : List (List Char) :=
  scan nonAtMatchAt content

/-- `re.findall(r'!\[([^\]]*)\]\(([^)]+)\)', content)`: the list of
`(alt, target)` pairs of all image references. -/
def findImages (content : List Char) : List (List Char × List Char) :=
  scan (fun l =>
    match imageMatchAt l with
    | some (a, u, r) => some ((a, u), r)
    | none => none) content

/-- `re.sub(r'!\[([^\]]*)\]\([^)]+\)', '', line)`: delete every image
reference, keep all other characters.  Fueled like `scanF`. -/
def stripImagesF : Nat → List Char → List Char
  | _, [] => []
  | 0, l => l
  | fuel + 1, c :: rest =>
    match imageMatchAt (c :: rest) with
    | some (_, _, r) => stripImagesF fuel r
    | none => c :: stripImagesF fuel rest

/-- `re.sub` of the image pattern over a whole line/text. -/
def stripImages (l : List Char) : List Char :=
  stripImagesF l.length l

/-- Index of the last newline of `l`, if any. -/
def lastNl : List Char → Option Nat
  | [] => none
  | c :: rest =>
    match lastNl rest with
    | some n => some (n + 1)
    | none => if c = '\n' then some 0 else none

/-- `re.split(r'\n\s*\n', s)`: a match starts at a newline and greedily
extends through the following whitespace run up to its last newline.
Fueled structural recursion; `fuel = l.length` suffices. -/
def sectionSplitF : Nat → List Char → List (List Char)
  | _, [] => [[]]
  | 0, l => [l]
  | fuel + 1, c :: rest =>
    if c = '\n' then
      match lastNl (rest.takeWhile pyIsSpace) with
      | some m => [] :: sectionSplitF fuel (rest.drop (m + 1))
      | none =>
        match sectionSplitF fuel rest with
        | [] => [[]]
        | h :: t => (c :: h) :: t
    else
      match sectionSplitF fuel rest with
      | [] => [[]]
      | h :: t => (c :: h) :: t

/-- `re.split(r'\n\s*\n', s)` over the whole string. -/
def sectionSplit (l : List Char) : List (List Char) :=
  sectionSplitF l.length l

/-- Markdown heading test `re.match(r'^#{1,6}\s+', line)`: between one and
six leading `#` markers followed by a whitespace character (backtracking
cannot shorten the `#` run, because a shorter run is followed by `#`). -/
def isHeading (line : List Char) : Bool :=
  let n := (line.takeWhile (fun c => c = '#')).length
  decide (1 ≤ n) && decide (n ≤ 6) &&
    (match line.drop n with
     | c :: _ => pyIsSpace c
     | [] => false)

/-- One step of the line loop of `verify_sparse_content`: accumulate
non-heading stripped lines into the current paragraph buffer, flushing the
buffer at headings and blank lines.  State: (paragraphs so far, buffer). -/
def paraStep (acc : List (List Char) × List (List Char)) (rawLine : List Char) :
    List (List Char) × List (List Char) :=
  let line := pyStrip rawLine
  if line ≠ [] then
    if isHeading line then
      if acc.2 ≠ [] then (acc.1 ++ [joinNl acc.2], []) else acc
    else (acc.1, acc.2 ++ [line])
  else if acc.2 ≠ [] then (acc.1 ++ [joinNl acc.2], [])
  else acc

/-- Paragraphs contributed by one section, flushing the final buffer. -/
def sectionParagraphs (sec : List Char) : List (List Char) :=
  let res := (splitOnNl sec).foldl paraStep ([], [])
  res.1 ++ (if res.2 ≠ [] then [joinNl res.2] else [])

/-- The paragraph list built by `verify_sparse_content` before filtering. -/
def sparseParagraphsRaw (content : List Char) : List (List Char) :=
  (sectionSplit (pyStrip content)).foldl
    (fun paras sec => if pyStrip sec ≠ [] then paras ++ sectionParagraphs sec else paras) []

/-- `[p.strip() for p in paragraphs if p.strip() and len(p.strip()) > 20]`. -/
def sparseRetained (content : List Char) : List (List Char) :=
  ((sparseParagraphsRaw content).map pyStrip).filter
    (fun p => decide (p ≠ []) && decide (p.length > 20))

/-- List pattern `^\s*\d+[\.\)]\s*` at a line start. -/
def listPat1 (line : List Char) : Bool :=
  let t := line.dropWhile pyIsSpace
  let ds := t.takeWhile pyIsDigit
  decide (ds ≠ []) &&
    (match t.drop ds.length with
     | c :: _ => c = '.' || c = ')'
     | [] => false)

/-- List pattern `^\s*[a-zA-Z][\.\)]\s*` at a line start. -/
def listPat2 (line : List Char) : Bool :=
  match line.dropWhile pyIsSpace with
  | a :: c :: _ => a.isAlpha && (c = '.' || c = ')')
  | _ => false

/-- List pattern `^\s*[-\*\+•]\s*` at a line start. -/
def listPat3 (line : List Char) : Bool :=
  match line.dropWhile pyIsSpace with
  | c :: _ => c = '-' || c = '*' || c = '+' || c = '•'
  | [] => false

/-- List pattern `^\s*[第]\d+[章节条]\s*` at a line start. -/
def listPat4 (line : List Char) : Bool :=
  match line.dropWhile pyIsSpace with
  | '第' :: t =>
    let ds := t.takeWhile pyIsDigit
    decide (ds ≠ []) &&
      (match t.drop ds.length with
       | c :: _ => c = '章' || c = '节' || c = '条'
       | [] => false)
  | _ => false

/-- Chinese numeral class `[一二三四五六七八九十]`. -/
def cnNumeral (c : Char) : Bool :=
  c = '一' || c = '二' || c = '三' || c = '四' || c = '五' ||
  c = '六' || c = '七' || c = '八' || c = '九' || c = '十'

/-- List pattern `^\s*[一二三四五六七八九十]+[\.\、]\s*` at a line start. -/
def listPat5 (line : List Char) : Bool :=
  let t := line.dropWhile pyIsSpace
  let ns := t.takeWhile cnNumeral
  decide (ns ≠ []) &&
    (match t.drop ns.length with
     | c :: _ => c = '.' || c = '、'
     | [] => false)

/-- `re.search(pattern, para, re.MULTILINE)` for the five `^`-anchored list
patterns: a match can start at any line start of the paragraph (a leading
`\s*` that crosses a newline lands on a later line start, so per-line
anchoring is exact). -/
def paraIsListLike (para : List Char) : Bool :=
  (splitOnNl para).any (fun l =>
    listPat1 l || listPat2 l || listPat3 l || listPat4 l || listPat5 l)

/-- Insertion into a sorted list (ascending). -/
def insertSorted (x : Nat) : List Nat → List Nat
  | [] => [x]
  | y :: t => if x ≤ y then x :: y :: t else y :: insertSorted x t

/-- Insertion sort, ascending; the sort behind `statistics.median`. -/
def sortNat (l : List Nat) : List Nat := l.foldr insertSorted []

/-- `statistics.median`: middle element of the sorted list, or the average
of the two middle elements (as an exact rational). -/
def median (l : List Nat) : Rat :=
  let s := sortNat l
  let n := s.length
  if n % 2 = 1 then ((s.getD (n / 2) 0 : Nat) : Rat)
  else (((s.getD (n / 2 - 1) 0 + s.getD (n / 2) 0 : Nat) : Rat)) / 2

/-- The issue strings of `verify_sparse_content`, as tagged values keeping
the ratio interpolated into the message. -/
inductive SparseIssue
  | shortParas (ratio : Rat)
  | veryShortParas (ratio : Rat)
  | listParas (ratio : Rat)
  | noMeaningful
deriving DecidableEq, Repr

/-- Result dictionary of `verify_sparse_content`.  `paragraph_count` and
`median_length` are `Option`s because the early zero-paragraph return of
the source omits those two keys from the dictionary. -/
structure SparseResult where
  has_issues : Bool
  issues : List SparseIssue
  sparsity_score : Rat
  paragraph_count : Option Nat
  median_length : Option Rat
deriving DecidableEq, Repr

/-- `PaperVerifier.verify_sparse_content`.  Scores are exact rationals; at
every reachable combination of the three additive contributions the float
arithmetic of the source is exact, so the two agree. -/
def verify_sparse_content (content : List Char) : SparseResult :=
  let paragraphs := sparseRetained content
  if paragraphs = [] then
    { has_issues := true, issues := [SparseIssue.noMeaningful], sparsity_score := 1,
      paragraph_count := none, median_length := none }
  else
    let lengths := paragraphs.map List.length
    let shortR : Rat := ((lengths.filter (fun p => p < 300)).length : Rat) / (lengths.length : Rat)
    let veryR : Rat := ((lengths.filter (fun p => p < 100)).length : Rat) / (lengths.length : Rat)
    let listR : Rat := ((paragraphs.filter paraIsListLike).length : Rat) / (paragraphs.length : Rat)
    let issues :=
      (if shortR > 6/10 then [SparseIssue.shortParas shortR] else []) ++
      (if veryR > 4/10 then [SparseIssue.veryShortParas veryR] else []) ++
      (if listR > 3/10 then [SparseIssue.listParas listR] else [])
    let score :=
      (if shortR > 6/10 then (3 : Rat)/10 else 0) +
      (if veryR > 4/10 then (2 : Rat)/10 else 0) +
      (if listR > 3/10 then (2 : Rat)/10 else 0)
    { has_issues := decide (issues.length > 0), issues := issues, sparsity_score := score,
      paragraph_count := some paragraphs.length,
      median_length := some (median lengths) }

/-- The 12 fixed boilerplate phrases of `verify_stereotype_content`. -/
def stereotype_words : List (List Char) :=
  ["首先，".data, "其次，".data, "再次，".data, "最后，".data, "再者，".data,
   "综上所述，".data, "值得注意的是，".data, "总而言之，".data, "换句话说，".data,
   "毫无疑问，".data, "显而易见，".data, "众所周知，".data]

/-- Tail of the bold-heading patterns: `\*\*(.{1,15})\*\*[：:]` at the head
of `l`.  `.` is any non-newline character; backtracking over the greedy
`{1,15}` repeat reduces to existence of an admissible count. -/
def boldColonAt (l : List Char) : Bool :=
  match l with
  | '*' :: '*' :: rest =>
    (List.range 15).any (fun k0 =>
      let k := k0 + 1
      let mid := rest.take k
      decide (mid.length = k) && mid.all (fun c => c ≠ '\n') &&
        (match rest.drop k with
         | '*' :: '*' :: c :: _ => c = '：' || c = ':'
         | _ => false))
  | _ => false

/-- `re.match(r'\d+\.\s*\*\*(.{1,15})\*\*[：:]', para)`. -/
def numBoldAt (l : List Char) : Bool :=
  let ds := l.takeWhile pyIsDigit
  decide (ds ≠ []) &&
    (match l.drop ds.length with
     | '.' :: rest => boldColonAt (rest.dropWhile pyIsSpace)
     | _ => false)

/-- `re.match(r'^\s*-\s*\*\*(.{1,15})\*\*[：:]', para)`. -/
def bulletBoldAt (l : List Char) : Bool :=
  match l.dropWhile pyIsSpace with
  | '-' :: rest => boldColonAt (rest.dropWhile pyIsSpace)
  | _ => false

/-- Description string of the first bold pattern. -/
def boldDesc1 : List Char := "段落以加粗短语和冒号开头".data

/-- Description string of the second bold pattern. -/
def boldDesc2 : List Char := "数字序号+加粗标题".data

/-- Description string of the third bold pattern. -/
def boldDesc3 : List Char := "列表项+加粗标题".data

/-- First bold pattern matching the paragraph, if any (the source's inner
loop breaks at the first matching pattern). -/
def paraBoldDesc (para : List Char) : Option (List Char) :=
  if boldColonAt para then some boldDesc1
  else if numBoldAt para then some boldDesc2
  else if bulletBoldAt para then some boldDesc3
  else none

/-- Does a paragraph trigger the stereotype detector at all? -/
def paraHasStereo (para : List Char) : Bool :=
  stereotype_words.any (fun w => containsSub w para) || (paraBoldDesc para).isSome

/-- One paragraph of the loop of `verify_stereotype_content`: state is
(found_expressions so far, affected-paragraph count so far). -/
def stereoStep (acc : List (List Char) × Nat) (para : List Char) :
    List (List Char) × Nat :=
  let found1 := stereotype_words.foldl
    (fun f w => if containsSub w para && decide (w ∉ f) then f ++ [w] else f) acc.1
  let found2 :=
    match paraBoldDesc para with
    | some d => if decide (d ∈ found1) then found1 else found1 ++ [d]
    | none => found1
  (found2, acc.2 + (if paraHasStereo para then 1 else 0))

/-- Result of `verify_stereotype_content`; the single aggregate issue string
is modelled as the list of expressions it names. -/
structure StereoResult where
  has_issues : Bool
  issues : List (List (List Char))
  found_expressions : List (List Char)
  affected_paragraphs : Nat
  total_paragraphs : Nat
deriving DecidableEq

/-- `[p.strip() for p in content.split('\\n\\n') if p.strip()]`. -/
def stereoParas (content : List Char) : List (List Char) :=
  ((splitOnNlNl content).map pyStrip).filter (fun p => decide (p ≠ []))

/-- `PaperVerifier.verify_stereotype_content`. -/
def verify_stereotype_content (content : List Char) : StereoResult :=
  let paragraphs := stereoParas content
  let res := paragraphs.foldl stereoStep ([], 0)
  let issues := if res.1 ≠ [] then [res.1] else []
  { has_issues := decide (issues.length > 0), issues := issues,
    found_expressions := res.1, affected_paragraphs := res.2,
    total_paragraphs := paragraphs.length }

/-- The 48 bare Greek letters checked by `verify_latex_formulas`. -/
def greek_letters : List Char :=
  ['α','β','γ','δ','ε','ζ','η','θ','ι','κ','λ','μ','ν','ξ','ο','π','ρ','σ','τ','υ','φ','χ','ψ','ω',
   'Α','Β','Γ','Δ','Ε','Ζ','Η','Θ','Ι','Κ','Λ','Μ','Ν','Ξ','Ο','Π','Ρ','Σ','Τ','Υ','Φ','Χ','Ψ','Ω']

/-- The bare math symbols checked by `verify_latex_formulas`. -/
def math_symbols : List Char :=
  ['∑','∏','∫','∞','≤','≥','≠','±','∝','∈','∀','∃']

/-- The exclusion `'$' in line or '$$' in line` of the source. -/
def lineHasDollar (l : List Char) : Bool :=
  l.contains '$' || containsSub ['$', '$'] l

/-- The issue strings of `verify_latex_formulas`, as tagged values keeping
the 1-based line number and the offending character. -/
inductive FormulaIssue
  | bareGreek (line : Nat) (letter : Char)
  | bareSymbol (line : Nat) (symbol : Char)
  | bareExpr (line : Nat)
deriving DecidableEq, Repr

/-- The line number an issue message reports. -/
def FormulaIssue.lineOf : FormulaIssue → Nat
  | bareGreek n _ => n
  | bareSymbol n _ => n
  | bareExpr n => n

/-- Character class `[a-zA-Z0-9+\-*/^()]`. -/
def exprChar (c : Char) : Bool :=
  c.isAlpha || c.isDigit || c = '+' || c = '-' || c = '*' || c = '/' ||
  c = '^' || c = '(' || c = ')'

/-- `[a-zA-Z]\s*=\s*[a-zA-Z0-9+\-*/^()]+` starting at character `c` (the
caller places `c` at a `\b` boundary). -/
def assignAt (c : Char) (rest : List Char) : Bool :=
  c.isAlpha &&
    (match rest.dropWhile pyIsSpace with
     | '=' :: t2 =>
       (match t2.dropWhile pyIsSpace with
        | d :: _ => exprChar d
        | [] => false)
     | _ => false)

/-- `[a-zA-Z]+\s*\^\s*[0-9]+` starting at `c`. -/
def powerAt (c : Char) (rest : List Char) : Bool :=
  c.isAlpha &&
    (let letters := rest.takeWhile Char.isAlpha
     match (rest.drop letters.length).dropWhile pyIsSpace with
     | '^' :: t2 =>
       (match t2.dropWhile pyIsSpace with
        | d :: _ => d.isDigit
        | [] => false)
     | _ => false)

/-- `[a-zA-Z]+_[a-zA-Z0-9]+` starting at `c`. -/
def subscriptAt (c : Char) (rest : List Char) : Bool :=
  c.isAlpha &&
    (let letters := rest.takeWhile Char.isAlpha
     match rest.drop letters.length with
     | '_' :: d :: _ => d.isAlphanum
     | _ => false)

/-- `re.search` for a `\b`-anchored pattern: try every position, tracking
whether the previous character is a word character. -/
def searchBoundary (p : Char → List Char → Bool) : Bool → List Char → Bool
  | _, [] => false
  | prevW, c :: rest => (!prevW && p c rest) || searchBoundary p (isWordChar c) rest

/-- Greek-letter issues contributed by one (1-based) line: one issue per
letter present, in the fixed order of `greek_letters`. -/
def greekIssuesFor (i : Nat) (line : List Char) : List FormulaIssue :=
  if lineHasDollar line then []
  else
    let lw := stripImages line
    (greek_letters.filter (fun g => lw.contains g)).map (fun g => FormulaIssue.bareGreek i g)

/-- Math-symbol issues contributed by one line. -/
def symbolIssuesFor (i : Nat) (line : List Char) : List FormulaIssue :=
  if lineHasDollar line then []
  else
    let lw := stripImages line
    (math_symbols.filter (fun s => lw.contains s)).map (fun s => FormulaIssue.bareSymbol i s)

/-- Bare-expression issue contributed by one line: at most one, the
source's loop breaks at the first matching pattern. -/
def exprIssuesFor (i : Nat) (line : List Char) : List FormulaIssue :=
  if lineHasDollar line then []
  else
    let lw := stripImages line
    if searchBoundary assignAt false lw then [FormulaIssue.bareExpr i]
    else if searchBoundary powerAt false lw then [FormulaIssue.bareExpr i]
    else if searchBoundary subscriptAt false lw then [FormulaIssue.bareExpr i]
    else []

/-- Result of `verify_latex_formulas`. -/
structure FormulaResult where
  has_issues : Bool
  issues : List FormulaIssue
deriving DecidableEq, Repr

/-- `PaperVerifier.verify_latex_formulas`: three successive passes over all
lines (Greek letters, then math symbols, then expression patterns), each
appending line by line to the same issues list. -/
def verify_latex_formulas (content : List Char) : FormulaResult :=
  let lines := enumLines content
  let issues1 := lines.foldl (fun acc il => acc ++ greekIssuesFor il.1 il.2) []
  let issues2 := lines.foldl (fun acc il => acc ++ symbolIssuesFor il.1 il.2) issues1
  let issues3 := lines.foldl (fun acc il => acc ++ exprIssuesFor il.1 il.2) issues2
  { has_issues := decide (issues3.length > 0), issues := issues3 }

/-- The bibliography argument of `verify_citations`: no usable file (no
path given, or the path does not exist), a file whose read/parse raised,
or the parsed set of entry keys. -/
inductive BibSource
  | noFile
  | parseError (e : List Char)
  | keys (ks : List (List Char))
deriving DecidableEq

/-- The issue strings of `verify_citations`, as tagged values. -/
inductive CiteIssue
  | nonStandard (bracketed : List Char)
  | missingKey (key : List Char)
  | bibReadError (e : List Char)
deriving DecidableEq

/-- Result of `verify_citations`. -/
structure CiteResult where
  has_issues : Bool
  issues : List CiteIssue
  citations_found : Nat
  unique_citations : Nat
deriving DecidableEq

/-- `PaperVerifier.verify_citations`.  NB: `findNonAtBrackets` yields full
matches, brackets included, exactly as the group-less `re.findall` of the
source does; together with Python's `"[123]".isdigit() == False` this makes
the numeric-reference exclusion ineffective. -/
def verify_citations (content : List Char) (bib : BibSource) : CiteResult :=
  let citations := findCitations content
  if citations = [] then
    { has_issues := false, issues := [], citations_found := 0, unique_citations := 0 }
  else
    let contentNoImages := stripImages content
    let invalids := findNonAtBrackets contentNoImages
    let issues1 := (invalids.filter
      (fun inv => !(containsSub "http".data inv || pyIsDigitStr inv))).map
      (fun inv => CiteIssue.nonStandard inv)
    let issues2 :=
      match bib with
      | BibSource.noFile => []
      | BibSource.parseError e => [CiteIssue.bibReadError e]
      | BibSource.keys ks =>
        (citations.filter (fun c => decide (c ∉ ks))).map (fun c => CiteIssue.missingKey c)
    let issues := issues1 ++ issues2
    { has_issues := decide (issues.length > 0), issues := issues,
      citations_found := citations.length,
      unique_citations := citations.dedup.length }

/-- The issue strings of `verify_images`, as tagged values. -/
inductive ImgIssue
  | networkLink (alt url : List Char)
  | relativePath (alt url : List Char)
  | fileNotFound (url : List Char)
deriving DecidableEq

/-- Result of `verify_images`. -/
structure ImgResult where
  has_issues : Bool
  issues : List ImgIssue
  images_found : Nat
deriving DecidableEq

/-- `os.path.isabs` on a POSIX system: starts with a slash. -/
def isAbsPath (p : List Char) : Bool :=
  "/".data.isPrefixOf p

/-- Per-image check chain of `verify_images`: network link, else relative
path, else missing file; first failing check wins (`continue`).
`fsExists` is the `os.path.exists` oracle. -/
def imageIssue (fsExists : List Char → Bool) (alt url : List Char) : Option ImgIssue :=
  if "http://".data.isPrefixOf url || "https://".data.isPrefixOf url then
    some (ImgIssue.networkLink alt url)
  else if !isAbsPath url then
    some (ImgIssue.relativePath alt url)
  else if !fsExists url then
    some (ImgIssue.fileNotFound url)
  else none

/-- `PaperVerifier.verify_images`.  The `md_file_path` argument of the
source is only used to compute `md_dir`, which the source never reads, so
it is dropped here; `fsExists` stands for `os.path.exists`. -/
def verify_images (fsExists : List Char → Bool) (content : List Char) : ImgResult :=
  let images := findImages content
  let issues := images.foldl
    (fun acc au => acc ++ (imageIssue fsExists au.1 au.2).toList) []
  { has_issues := decide (issues.length > 0), issues := issues,
    images_found := images.length }

/-- The issue strings of `verify_code_blocks`, as tagged values keeping the
1-based line number (and, for an opening fence, the language tag). -/
inductive CodeIssue
  | fencedBlock (line : Nat) (tag : List Char)
  | inlineCode (line : Nat)
deriving DecidableEq

/-- Result of `verify_code_blocks`. -/
structure CodeResult where
  has_issues : Bool
  issues : List CodeIssue
deriving DecidableEq

/-- The backtick character. -/
def btick : Char := Char.ofNat 96

/-- A triple-backtick fence marker. -/
def fenceMarker : List Char := [btick, btick, btick]

/-- `line.strip().startswith(three backticks)`. -/
def isFenceLine (line : List Char) : Bool :=
  fenceMarker.isPrefixOf (pyStrip line)

/-- One line of the fenced-block pass: toggle the open/close flag, and on
an opening fence record the issue with the fence's language tag
(`line.strip()[3:].strip() or default`). -/
def fenceStep (acc : List CodeIssue × Bool) (il : Nat × List Char) :
    List CodeIssue × Bool :=
  let st := pyStrip il.2
  if fenceMarker.isPrefixOf st then
    if !acc.2 then
      let tag := pyStrip (st.drop 3)
      (acc.1 ++ [CodeIssue.fencedBlock il.1 (if tag = [] then "代码".data else tag)], true)
    else (acc.1, false)
  else acc

/-- Inline-code issue of one line: a backtick present, the line is not a
fence line, and the line holds at least two backticks. -/
def inlineIssuesFor (il : Nat × List Char) : List CodeIssue :=
  if il.2.contains btick && !isFenceLine il.2 then
    if il.2.count btick ≥ 2 then [CodeIssue.inlineCode il.1] else []
  else []

/-- `PaperVerifier.verify_code_blocks`: the fenced-block pass, then the
inline-code pass, appending to the same issues list. -/
def verify_code_blocks (content : List Char) : CodeResult :=
  let lines := enumLines content
  let fenced := lines.foldl fenceStep ([], false)
  let issues := lines.foldl (fun acc il => acc ++ inlineIssuesFor il) fenced.1
  { has_issues := decide (issues.length > 0), issues := issues }

/-- Result dictionary of `WebSearchAPI.search_reference`; keys that a given
return path omits are `none`. -/
structure SearchResult (α : Type) where
  success : Bool
  found : Option Bool
  results : Option (List α)
  error : Option (List Char)
deriving DecidableEq

/-- Outcome of the HTTPS exchange as seen from inside the `try` block:
either some step up to `response.read()` raised, or a response with a
status code was fully read, whose later `json.loads` step either raises
(`Except.error`) or yields a body with an optional `organic` array. -/
inductive NetOutcome (α : Type)
  | raises (e : List Char)
  | ok (status : Nat) (body : Except (List Char) (Option (List α)))

/-- The query string `f'"{title}"'`, plus ` {authors}` when non-empty. -/
def buildQuery (title authors : List Char) : List Char :=
  ('"' :: title ++ ['"']) ++ (if authors ≠ [] then ' ' :: authors else [])

/-- `WebSearchAPI.search_reference`, over an explicit credential and a
network oracle mapping the query to the exchange's outcome.  The model is
a total function: every failure mode of the source is converted into a
returned value inside the source's `try/except`, none is re-raised. -/
def search_reference (α : Type) (apiKey : Option (List Char))
    (title authors : List Char) (net : List Char → NetOutcome α) : SearchResult α :=
  match apiKey with
  | none =>
    { success := false, found := none, results := none,
      error := some "SERPER_API_KEY not provided".data }
  | some _ =>
    match net (buildQuery title authors) with
    | NetOutcome.raises e =>
      { success := false, found := none, results := none,
        error := some ("Search request failed: ".data ++ e) }
    | NetOutcome.ok status body =>
      if status ≠ 200 then
        { success := false, found := none, results := none,
          error := some ("API request failed with status ".data ++ (Nat.repr status).data) }
      else
        match body with
        | Except.error e =>
          { success := false, found := none, results := none,
            error := some ("Search request failed: ".data ++ e) }
        | Except.ok (some organic) =>
          if organic.length > 0 then
            { success := true, found := some true, results := some (organic.take 3),
              error := none }
          else
            { success := true, found := some false, results := some [], error := none }
        | Except.ok none =>
          { success := true, found := some false, results := some [], error := none }

/-- One parsed bibliography entry; `entry.get('title', '')` etc. make a
missing field the empty string. -/
structure BibEntry where
  ID : List Char
  title : List Char
  author : List Char
deriving DecidableEq

/-- The bibliography file as `verify_bib_references` sees it: path missing,
read/parse raised, or parsed into entries. -/
inductive BibFile
  | missing (path : List Char)
  | unreadable (e : List Char)
  | parsed (entries : List BibEntry)

/-- The issue strings of `verify_bib_references`, as tagged values. -/
inductive BibIssue
  | fileMissing (path : List Char)
  | missingTitle (key : List Char)
  | lookupFailed (key : List Char) (err : List Char)
  | maybeNotReal (key : List Char) (title : List Char)
  | parseError (e : List Char)
deriving DecidableEq

/-- Result of `verify_bib_references`. -/
structure BibResult where
  has_issues : Bool
  issues : List BibIssue
  verified_count : Nat
  total_count : Nat
deriving DecidableEq

/-- Loop body of `verify_bib_references` for one entry: its issues, its
`verified_count` increment, and the lookup queries it sends (the real
client always returns `found = some _` when `success = true`, so the
`getD false` default is never exercised by it). -/
def bibEntryOut (α : Type) (lookup : List Char → List Char → SearchResult α)
    (e : BibEntry) : List BibIssue × Nat × List (List Char × List Char) :=
  if e.title = [] then ([BibIssue.missingTitle e.ID], 0, [])
  else
    let r := lookup e.title e.author
    if !r.success then
      ([BibIssue.lookupFailed e.ID (r.error.getD "Unknown error".data)], 0,
        [(e.title, e.author)])
    else if !(r.found.getD false) then
      ([BibIssue.maybeNotReal e.ID e.title], 0, [(e.title, e.author)])
    else ([], 1, [(e.title, e.author)])

/-- The entry loop of `verify_bib_references`, as a fold whose state is
(issues, verified_count, total_count, queries sent so far). -/
def bibLoop (α : Type) (lookup : List Char → List Char → SearchResult α)
    (entries : List BibEntry) :
    List BibIssue × Nat × Nat × List (List Char × List Char) :=
  entries.foldl
    (fun acc e =>
      let o := bibEntryOut α lookup e
      (acc.1 ++ o.1, acc.2.1 + o.2.1, acc.2.2.1 + 1, acc.2.2.2 ++ o.2.2))
    ([], 0, 0, [])

/-- `PaperVerifier.verify_bib_references`, over an explicit bibliography
outcome (`os.path.exists`, read, `bibtexparser.loads`) and a lookup oracle
standing for `WebSearchAPI.search_reference`. -/
def verify_bib_references (α : Type) (bib : BibFile)
    (lookup : List Char → List Char → SearchResult α) : BibResult :=
  match bib with
  | BibFile.missing path =>
    { has_issues := true, issues := [BibIssue.fileMissing path],
      verified_count := 0, total_count := 0 }
  | BibFile.unreadable e =>
    let issues := [BibIssue.parseError e]
    { has_issues := decide (issues.length > 0), issues := issues,
      verified_count := 0, total_count := 0 }
  | BibFile.parsed entries =>
    let o := bibLoop α lookup entries
    { has_issues := decide (o.1.length > 0), issues := o.1,
      verified_count := o.2.1, total_count := o.2.2.1 }

/-- The lookup queries `verify_bib_references` sends, in order: a ghost
observation of the loop, used to state that a title-less entry triggers no
lookup. -/
def bibLookupTrace (α : Type) (bib : BibFile)
    (lookup : List Char → List Char → SearchResult α) :
    List (List Char × List Char) :=
  match bib with
  | BibFile.parsed entries => (bibLoop α lookup entries).2.2.2
  | _ => []

/-! ## General helper lemmas -/

/-- Non-emptiness of a list as its length being positive. -/
theorem decide_length_pos {γ : Type} (l : List γ) :
    decide (l.length > 0) = !l.isEmpty := by
  cases l <;> simp

/-- Emptiness of an appended list. -/
theorem list_isEmpty_append {γ : Type} (a b : List γ) :
    (a ++ b).isEmpty = (a.isEmpty && b.isEmpty) := by
  cases a <;> simp

/-- Emptiness of a mapped list. -/
theorem list_isEmpty_map {γ δ : Type} (f : γ → δ) (l : List γ) :
    (l.map f).isEmpty = l.isEmpty := by
  cases l <;> simp

/-- A left fold that only ever appends blocks equals the initial list
followed by the concatenation of the blocks. -/
theorem foldl_append_flat {γ δ : Type} (f : γ → List δ) :
    ∀ (ls : List γ) (init : List δ),
      ls.foldl (fun acc x => acc ++ f x) init =
        init ++ ls.foldr (fun x acc => f x ++ acc) [] := by
  intro ls
  induction ls with
  | nil => intro init; simp
  | cons a rest ih => intro init; simp [ih, List.append_assoc]

/-- Membership in a concatenation of blocks. -/
theorem mem_foldr_flat {γ δ : Type} (f : γ → List δ) :
    ∀ (ls : List γ) (x : δ),
      x ∈ ls.foldr (fun a acc => f a ++ acc) [] ↔ ∃ a, a ∈ ls ∧ x ∈ f a := by
  intro ls x
  induction ls with
  | nil => simp
  | cons a rest ih => simp [ih]

/-- A left fold appending the `toList` of an optional value equals the
initial list followed by the `filterMap`. -/
theorem foldl_append_toList {γ δ : Type} (g : γ → Option δ) :
    ∀ (l : List γ) (init : List δ),
      l.foldl (fun acc x => acc ++ (g x).toList) init = init ++ l.filterMap g := by
  intro l
  induction l with
  | nil => intro init; simp
  | cons x rest ih =>
    intro init
    simp only [List.foldl_cons, ih]
    cases hg : g x <;> simp [List.filterMap_cons, hg, List.append_assoc]

/-- Indices produced by `enumFrom k` are at least `k`. -/
theorem enumFrom_mem_lb : ∀ (lines : List (List Char)) (k : Nat) (p : Nat × List Char),
    p ∈ lines.enumFrom k → k ≤ p.1 := by
  intro lines
  induction lines with
  | nil => intro k p hp; simp [List.enumFrom] at hp
  | cons hd tl ih =>
    intro k p hp
    simp only [List.enumFrom, List.mem_cons] at hp
    rcases hp with hp | hp
    · subst hp; exact Nat.le_refl k
    · exact Nat.le_of_succ_le (ih (k + 1) p hp)

/-- `enumFrom` indexes lines uniquely: equal indices mean equal lines. -/
theorem enumFrom_functional : ∀ (lines : List (List Char)) (k n : Nat)
    (l1 l2 : List Char), (n, l1) ∈ lines.enumFrom k → (n, l2) ∈ lines.enumFrom k →
    l1 = l2 := by
  intro lines
  induction lines with
  | nil => intro k n l1 l2 h1 _; simp [List.enumFrom] at h1
  | cons hd tl ih =>
    intro k n l1 l2 h1 h2
    simp only [List.enumFrom, List.mem_cons, Prod.mk.injEq] at h1 h2
    rcases h1 with ⟨hn1, hl1⟩ | h1
    · rcases h2 with ⟨hn2, hl2⟩ | h2
      · rw [hl1, hl2]
      · exfalso
        have := enumFrom_mem_lb tl (k + 1) (n, l2) h2
        omega
    · rcases h2 with ⟨hn2, hl2⟩ | h2
      · exfalso
        have := enumFrom_mem_lb tl (k + 1) (n, l1) h1
        omega
      · exact ih (k + 1) n l1 l2 h1 h2

/-! ## The formula analyzer's issue order (claim C1) -/

/-- One pass of `verify_latex_formulas`, as a standalone list. -/
def passOf (f : Nat → List Char → List FormulaIssue) (content : List Char) :
    List FormulaIssue :=
  (enumLines content).foldr (fun il acc => f il.1 il.2 ++ acc) []

/-- The appending left fold of one pass, rebased onto an initial list. -/
theorem foldl_append_pass (f : Nat → List Char → List FormulaIssue) :
    ∀ (ls : List (Nat × List Char)) (init : List FormulaIssue),
      ls.foldl (fun acc il => acc ++ f il.1 il.2) init =
        init ++ ls.foldr (fun il acc => f il.1 il.2 ++ acc) [] := by
  intro ls
  induction ls with
  | nil => intro init; simp
  | cons hd tl ih => intro init; simp [ih, List.append_assoc]

/-- Issues of a pass over lines numbered from `k` report line numbers at
least `k`. -/
theorem pass_line_lb (f : Nat → List Char → List FormulaIssue)
    (hf : ∀ i l x, x ∈ f i l → x.lineOf = i) :
    ∀ (lines : List (List Char)) (k : Nat) (x : FormulaIssue),
      x ∈ (lines.enumFrom k).foldr (fun il acc => f il.1 il.2 ++ acc) [] →
      k ≤ x.lineOf := by
  intro lines
  induction lines with
  | nil => intro k x hx; simp [List.enumFrom] at hx
  | cons hd tl ih =>
    intro k x hx
    simp only [List.enumFrom, List.foldr_cons, List.mem_append] at hx
    cases hx with
    | inl h => rw [hf k hd x h]
    | inr h => exact Nat.le_of_succ_le (ih (k + 1) x h)

/-- Each pass of `verify_latex_formulas` lists its issues in nondecreasing
line order. -/
theorem pass_sorted (f : Nat → List Char → List FormulaIssue)
    (hf : ∀ i l x, x ∈ f i l → x.lineOf = i) :
    ∀ (lines : List (List Char)) (k : Nat),
      List.Pairwise (fun a b => FormulaIssue.lineOf a ≤ FormulaIssue.lineOf b)
        ((lines.enumFrom k).foldr (fun il acc => f il.1 il.2 ++ acc) []) := by
  intro lines
  induction lines with
  | nil => intro k; simp [List.enumFrom]
  | cons hd tl ih =>
    intro k
    simp only [List.enumFrom, List.foldr_cons]
    apply List.pairwise_append.mpr
    refine ⟨?_, ih (k + 1), ?_⟩
    · apply List.pairwise_of_forall_mem_list
      intro a ha b hb
      rw [hf k hd a ha, hf k hd b hb]
    · intro a ha b hb
      rw [hf k hd a ha]
      exact Nat.le_of_succ_le (pass_line_lb f hf tl (k + 1) b hb)

/-- Greek-pass issues carry the line number of the line they came from. -/
theorem greek_lineOf : ∀ i l x, x ∈ greekIssuesFor i l → x.lineOf = i := by
  intro i l x hx
  simp only [greekIssuesFor] at hx
  split at hx
  · simp at hx
  · simp only [List.mem_map, List.mem_filter] at hx
    obtain ⟨g, _, rfl⟩ := hx
    rfl

/-- Symbol-pass issues carry the line number of the line they came from. -/
theorem symbol_lineOf : ∀ i l x, x ∈ symbolIssuesFor i l → x.lineOf = i := by
  intro i l x hx
  simp only [symbolIssuesFor] at hx
  split at hx
  · simp at hx
  · simp only [List.mem_map, List.mem_filter] at hx
    obtain ⟨g, _, rfl⟩ := hx
    rfl

/-- Expression-pass issues carry the line number of the line they came
from. -/
theorem expr_lineOf : ∀ i l x, x ∈ exprIssuesFor i l → x.lineOf = i := by
  intro i l x hx
  simp only [exprIssuesFor] at hx
  split at hx
  · simp at hx
  · split at hx
    · simp at hx; rw [hx]; rfl
    · split at hx
      · simp at hx; rw [hx]; rfl
      · split at hx
        · simp at hx; rw [hx]; rfl
        · simp at hx

/-- Claim C1 (counterexample): on the two-line text `∑\nα` the flagged
math symbol sits on line 1 and the flagged Greek letter on line 2, yet the
Greek-letter issue is returned first — so the issues list of
`verify_latex_formulas` is not ordered by line number, and a symbol on an
earlier line does not precede a Greek letter on a later line. -/
theorem formula_issue_order_counterexample :
    (verify_latex_formulas ("∑\nα".data)).issues =
        [FormulaIssue.bareGreek 2 'α', FormulaIssue.bareSymbol 1 '∑'] ∧
      ¬ List.Pairwise (fun a b => FormulaIssue.lineOf a ≤ FormulaIssue.lineOf b)
          (verify_latex_formulas ("∑\nα".data)).issues := by
  constructor
  · decide
  · decide

/-- Claim C1 (amended): the issues list of `verify_latex_formulas` is
grouped by category — all bare-Greek-letter issues, then all math-symbol
issues, then all bare-expression issues, because the source makes three
separate passes over all lines — and within each category the issues are
in nondecreasing line order (so on one line Greek still precedes symbols,
which precede expression issues, but a symbol on an earlier line comes
after a Greek letter on a later line). -/
theorem formula_issue_order_grouped (content : List Char) :
    (verify_latex_formulas content).issues =
        passOf greekIssuesFor content ++ passOf symbolIssuesFor content ++
          passOf exprIssuesFor content ∧
      List.Pairwise (fun a b => FormulaIssue.lineOf a ≤ FormulaIssue.lineOf b)
        (passOf greekIssuesFor content) ∧
      List.Pairwise (fun a b => FormulaIssue.lineOf a ≤ FormulaIssue.lineOf b)
        (passOf symbolIssuesFor content) ∧
      List.Pairwise (fun a b => FormulaIssue.lineOf a ≤ FormulaIssue.lineOf b)
        (passOf exprIssuesFor content) := by
  refine ⟨?_, pass_sorted _ greek_lineOf _ 1, pass_sorted _ symbol_lineOf _ 1,
    pass_sorted _ expr_lineOf _ 1⟩
  simp only [verify_latex_formulas, passOf]
  rw [foldl_append_pass, foldl_append_pass, foldl_append_pass]
  simp [List.append_assoc]

/-! ## The citation analyzer's numeric-span exclusion (claim C2) -/

/-- Claim C2 (code bug): on a text holding both a `[@key]` citation and the
purely numeric bracketed span `[123]` (and an http-containing span, which
is correctly skipped), `verify_citations` emits a non-standard-bracket
issue for the numeric span.  The group-less `re.findall` of the source
returns the span with its brackets, so `"[123]".isdigit()` is false and
the numeric-reference exclusion written in the source never fires. -/
theorem citations_numeric_span_flagged :
    (verify_citations ("see [@k] and [123] and [a link http] end".data)
        BibSource.noFile).issues =
      [CiteIssue.nonStandard "[123]".data] := by
  decide

/-! ## The sparsity analyzer's zero-paragraph return (claim C3) -/

/-- Claim C3 (code bug): on a document with no retained paragraph the early
return of `verify_sparse_content` reports `has_issues = true` with the
single no-meaningful-paragraphs issue and score exactly 1.0, but omits the
`paragraph_count` and `median_length` keys, although the claim requires
all four contract fields on every input (and the report renderer reads
`paragraph_count` unconditionally). -/
theorem sparse_zero_paragraph_missing_fields :
    verify_sparse_content ("short".data) =
      { has_issues := true, issues := [SparseIssue.noMeaningful], sparsity_score := 1,
        paragraph_count := none, median_length := none } := by
  decide

/-! ## The has_issues invariant (claim C4) -/

/-- Sparsity analyzer: `has_issues` equals non-emptiness of `issues`. -/
theorem sparse_has_issues_eq (c : List Char) :
    (verify_sparse_content c).has_issues = !(verify_sparse_content c).issues.isEmpty := by
  by_cases h : sparseRetained c = [] <;>
    simp [verify_sparse_content, h, decide_length_pos, list_isEmpty_append]

/-- Stereotype analyzer: `has_issues` equals non-emptiness of `issues`. -/
theorem stereo_has_issues_eq (c : List Char) :
    (verify_stereotype_content c).has_issues =
      !(verify_stereotype_content c).issues.isEmpty := by
  simp only [verify_stereotype_content]
  split <;> simp_all

/-- Formula analyzer: `has_issues` equals non-emptiness of `issues`. -/
theorem formulas_has_issues_eq (c : List Char) :
    (verify_latex_formulas c).has_issues = !(verify_latex_formulas c).issues.isEmpty := by
  simp [verify_latex_formulas, decide_length_pos]

/-- Citation analyzer: `has_issues` equals non-emptiness of `issues`. -/
theorem citations_has_issues_eq (c : List Char) (bib : BibSource) :
    (verify_citations c bib).has_issues = !(verify_citations c bib).issues.isEmpty := by
  by_cases h : findCitations c = [] <;>
    simp [verify_citations, h, decide_length_pos, list_isEmpty_append, list_isEmpty_map]

/-- Image analyzer: `has_issues` equals non-emptiness of `issues`. -/
theorem images_has_issues_eq (ex : List Char → Bool) (c : List Char) :
    (verify_images ex c).has_issues = !(verify_images ex c).issues.isEmpty := by
  simp [verify_images, decide_length_pos]

/-- Code-block analyzer: `has_issues` equals non-emptiness of `issues`. -/
theorem code_has_issues_eq (c : List Char) :
    (verify_code_blocks c).has_issues = !(verify_code_blocks c).issues.isEmpty := by
  simp [verify_code_blocks, decide_length_pos]

/-- Bibliography analyzer: `has_issues` equals non-emptiness of `issues`. -/
theorem bib_has_issues_eq (α : Type) (bib : BibFile)
    (lookup : List Char → List Char → SearchResult α) :
    (verify_bib_references α bib lookup).has_issues =
      !(verify_bib_references α bib lookup).issues.isEmpty := by
  cases bib <;> simp [verify_bib_references, decide_length_pos]

/-- Claim C4: for every analyzer — sparsity, stereotype, formula, citation,
image, code-block and bibliography — and every input (and every oracle for
the filesystem / network effects), the returned result satisfies
`has_issues == (len(issues) > 0)`. -/
theorem analyzers_has_issues_consistent :
    (∀ c, (verify_sparse_content c).has_issues =
      !(verify_sparse_content c).issues.isEmpty) ∧
    (∀ c, (verify_stereotype_content c).has_issues =
      !(verify_stereotype_content c).issues.isEmpty) ∧
    (∀ c, (verify_latex_formulas c).has_issues =
      !(verify_latex_formulas c).issues.isEmpty) ∧
    (∀ c bib, (verify_citations c bib).has_issues =
      !(verify_citations c bib).issues.isEmpty) ∧
    (∀ ex c, (verify_images ex c).has_issues =
      !(verify_images ex c).issues.isEmpty) ∧
    (∀ c, (verify_code_blocks c).has_issues =
      !(verify_code_blocks c).issues.isEmpty) ∧
    (∀ (α : Type) (bib : BibFile) (lookup : List Char → List Char → SearchResult α),
      (verify_bib_references α bib lookup).has_issues =
        !(verify_bib_references α bib lookup).issues.isEmpty) :=
  ⟨sparse_has_issues_eq, stereo_has_issues_eq, formulas_has_issues_eq,
   citations_has_issues_eq, images_has_issues_eq, code_has_issues_eq,
   bib_has_issues_eq⟩

/-! ## The sparsity score at the 7/10 and 5/10 ratios (claim C5) -/

/-- Claim C5: whenever the retained paragraphs number exactly 10, of which
exactly 7 are shorter than 300 characters, exactly 5 shorter than 100, and
none matches a list-marker pattern, `verify_sparse_content` returns
`sparsity_score = 0.3 + 0.2 = 0.5` and exactly the two corresponding
issues — the 0.6 and 0.4 thresholds are exceeded (strict `>`), the 0.3
list threshold is not. -/
theorem sparse_score_half_of_ratios (content : List Char)
    (hn : (sparseRetained content).length = 10)
    (h7 : (((sparseRetained content).map List.length).filter (fun p => p < 300)).length = 7)
    (h5 : (((sparseRetained content).map List.length).filter (fun p => p < 100)).length = 5)
    (h0 : ((sparseRetained content).filter paraIsListLike).length = 0) :
    (verify_sparse_content content).sparsity_score = 1/2 ∧
    (verify_sparse_content content).issues =
      [SparseIssue.shortParas (7/10), SparseIssue.veryShortParas (1/2)] := by
  have hne : sparseRetained content ≠ [] := by
    intro h; rw [h] at hn; simp at hn
  simp only [verify_sparse_content, if_neg hne]
  simp only [List.length_map]
  rw [hn, h7, h5, h0]
  norm_num

/-- A run of `n` letters `a`. -/
def aRun (n : Nat) : List Char := List.replicate n 'a'

/-- Join paragraphs with blank lines. -/
def joinBlank : List (List Char) → List Char
  | [] => []
  | [x] => x
  | x :: y :: t => x ++ '\n' :: '\n' :: joinBlank (y :: t)

/-- A ten-paragraph document: five 50-character, two 150-character and
three 300-character paragraphs of plain letters, blank-line separated. -/
def tenParaDoc : List Char :=
  joinBlank [aRun 50, aRun 50, aRun 50, aRun 50, aRun 50,
             aRun 150, aRun 150, aRun 300, aRun 300, aRun 300]

set_option maxRecDepth 8192 in
/-- Claim C5 (witness): the ten-paragraph document above satisfies the
hypotheses, and the analyzer indeed scores it 0.5 with the two issues. -/
theorem sparse_score_half_witness :
    (verify_sparse_content tenParaDoc).sparsity_score = 1/2 ∧
    (verify_sparse_content tenParaDoc).issues =
      [SparseIssue.shortParas (7/10), SparseIssue.veryShortParas (1/2)] :=
  sparse_score_half_of_ratios tenParaDoc (by decide) (by decide) (by decide) (by decide)

/-! ## The web lookup client (claim C6) -/

/-- Claim C6: `WebSearchAPI.search_reference` never propagates a failure to
its caller (the model is a total function; every exception path of the
source is folded into the returned value).  Whenever `success` is false an
error string is present; a missing credential, a raised exchange, and a
non-200 status each force `success = false`; a 200 response whose body
parses yields `success = true` with `found = some true` exactly when the
body holds a non-empty `organic` array, in which case `results` is its
first three entries (hence at most 3). -/
theorem search_reference_never_throws (α : Type) (apiKey : Option (List Char))
    (title authors : List Char) (net : List Char → NetOutcome α) :
    ((search_reference α apiKey title authors net).success = false →
      (search_reference α apiKey title authors net).error.isSome = true) ∧
    (apiKey = none → (search_reference α apiKey title authors net).success = false) ∧
    (∀ e, apiKey.isSome = true → net (buildQuery title authors) = NetOutcome.raises e →
      (search_reference α apiKey title authors net).success = false) ∧
    (∀ s b, apiKey.isSome = true → net (buildQuery title authors) = NetOutcome.ok s b →
      s ≠ 200 → (search_reference α apiKey title authors net).success = false) ∧
    (∀ e, apiKey.isSome = true →
      net (buildQuery title authors) = NetOutcome.ok 200 (Except.error e) →
      (search_reference α apiKey title authors net).success = false) ∧
    (∀ organic, apiKey.isSome = true →
      net (buildQuery title authors) = NetOutcome.ok 200 (Except.ok organic) →
      (search_reference α apiKey title authors net).success = true ∧
      ((search_reference α apiKey title authors net).found = some true ↔
        ∃ l, organic = some l ∧ l ≠ []) ∧
      (∀ l, organic = some l → l ≠ [] →
        (search_reference α apiKey title authors net).results = some (l.take 3) ∧
        (l.take 3).length ≤ 3)) := by
  refine ⟨?_, ?_, ?_, ?_, ?_, ?_⟩
  · intro hs
    cases apiKey with
    | none => simp [search_reference]
    | some k =>
      cases hnet : net (buildQuery title authors) with
      | raises e => simp [search_reference, hnet]
      | ok s b =>
        by_cases h200 : s = 200
        · subst h200
          cases b with
          | error e => simp [search_reference, hnet]
          | ok organic =>
            cases organic with
            | none => simp [search_reference, hnet] at hs
            | some l =>
              by_cases hl : l.length > 0 <;> simp [search_reference, hnet, hl] at hs
        · simp [search_reference, hnet, h200]
  · intro hk; subst hk; simp [search_reference]
  · intro e hk hnet
    cases apiKey with
    | none => simp at hk
    | some k => simp [search_reference, hnet]
  · intro s b hk hnet h200
    cases apiKey with
    | none => simp at hk
    | some k => simp [search_reference, hnet, h200]
  · intro e hk hnet
    cases apiKey with
    | none => simp at hk
    | some k => simp [search_reference, hnet]
  · intro organic hk hnet
    cases apiKey with
    | none => simp at hk
    | some k =>
      cases organic with
      | none =>
        refine ⟨by simp [search_reference, hnet], ?_, ?_⟩
        · constructor
          · intro hfound
            exfalso
            simp [search_reference, hnet] at hfound
          · rintro ⟨l2, hl2, _⟩
            simp at hl2
        · intro l2 hl2 _
          simp at hl2
      | some l =>
        by_cases hl : l.length > 0
        · have hne : l ≠ [] := List.length_pos.mp hl
          refine ⟨?_, ?_, ?_⟩
          · simp [search_reference, hnet, hl]
          · constructor
            · intro _
              exact ⟨l, rfl, hne⟩
            · intro _
              simp [search_reference, hnet, hl]
          · intro l2 hl2 hne2
            cases hl2
            refine ⟨by simp [search_reference, hnet, hl], ?_⟩
            simp [List.length_take]
        · have hnil : l = [] := by
            cases l with
            | nil => rfl
            | cons a t => simp at hl
          refine ⟨?_, ?_, ?_⟩
          · simp [search_reference, hnet, hl]
          · constructor
            · intro hfound
              exfalso
              simp [search_reference, hnet, hl] at hfound
            · rintro ⟨l2, hl2, hne2⟩
              cases hl2
              exact absurd hnil hne2
          · intro l2 hl2 hne2
            cases hl2
            exact absurd hnil hne2

/-- Claim C6 (witness): a missing-network run fails with `success = false`,
and a 200 response with four organic entries succeeds, truncating
`results` to the first three. -/
theorem search_reference_never_throws_witness :
    (search_reference Nat none "t".data [] (fun _ => NetOutcome.raises [])).success =
        false ∧
      (search_reference Nat (some "k".data) "t".data []
        (fun _ => NetOutcome.ok 200 (Except.ok (some [1, 2, 3, 4])))).success = true ∧
      (search_reference Nat (some "k".data) "t".data []
        (fun _ => NetOutcome.ok 200 (Except.ok (some [1, 2, 3, 4])))).results =
        some [1, 2, 3] := by
  refine ⟨(search_reference_never_throws Nat none "t".data []
    (fun _ => NetOutcome.raises [])).2.1 rfl, ?_, ?_⟩
  · exact ((search_reference_never_throws Nat (some "k".data) "t".data []
      (fun _ => NetOutcome.ok 200 (Except.ok (some [1, 2, 3, 4])))).2.2.2.2.2
      (some [1, 2, 3, 4]) rfl rfl).1
  · have h := ((search_reference_never_throws Nat (some "k".data) "t".data []
      (fun _ => NetOutcome.ok 200 (Except.ok (some [1, 2, 3, 4])))).2.2.2.2.2
      (some [1, 2, 3, 4]) rfl rfl).2.2 [1, 2, 3, 4] rfl (by decide)
    simpa using h.1

/-! ## The bibliography analyzer's counting discipline (claim C7) -/

/-- Structural restatement of the entry loop of `verify_bib_references`. -/
def bibLoopR (α : Type) (lookup : List Char → List Char → SearchResult α) :
    List BibEntry → List BibIssue × Nat × Nat × List (List Char × List Char)
  | [] => ([], 0, 0, [])
  | e :: rest =>
    let o := bibEntryOut α lookup e
    let r := bibLoopR α lookup rest
    (o.1 ++ r.1, o.2.1 + r.2.1, 1 + r.2.2.1, o.2.2 ++ r.2.2.2)

/-- The folded loop equals the structural restatement, rebased onto any
initial accumulator. -/
theorem bibLoop_eq (α : Type) (lookup : List Char → List Char → SearchResult α) :
    ∀ (entries : List BibEntry)
      (init : List BibIssue × Nat × Nat × List (List Char × List Char)),
      entries.foldl (fun acc e =>
        let o := bibEntryOut α lookup e
        (acc.1 ++ o.1, acc.2.1 + o.2.1, acc.2.2.1 + 1, acc.2.2.2 ++ o.2.2)) init =
      (init.1 ++ (bibLoopR α lookup entries).1,
       init.2.1 + (bibLoopR α lookup entries).2.1,
       init.2.2.1 + (bibLoopR α lookup entries).2.2.1,
       init.2.2.2 ++ (bibLoopR α lookup entries).2.2.2) := by
  intro entries
  induction entries with
  | nil => intro init; simp [bibLoopR]
  | cons e rest ih =>
    intro init
    simp only [List.foldl_cons, bibLoopR, ih]
    simp [List.append_assoc, Nat.add_assoc]

/-- Does an entry verify: non-empty title, successful lookup, found. -/
def bibVerifiedPred (α : Type) (lookup : List Char → List Char → SearchResult α)
    (e : BibEntry) : Bool :=
  decide (e.title ≠ []) && (lookup e.title e.author).success &&
    ((lookup e.title e.author).found.getD false)

/-- Recogniser for the missing-title issue. -/
def isMissingTitle : BibIssue → Bool
  | BibIssue.missingTitle _ => true
  | _ => false

/-- Per-entry facts of the loop body: the verified increment, the count of
missing-title issues, and the queries sent. -/
theorem bibEntryOut_cases (α : Type) (lookup : List Char → List Char → SearchResult α)
    (e : BibEntry) :
    (bibEntryOut α lookup e).2.1 = (if bibVerifiedPred α lookup e then 1 else 0) ∧
    ((bibEntryOut α lookup e).1.countP isMissingTitle) =
      (if e.title = [] then 1 else 0) ∧
    (bibEntryOut α lookup e).2.2 =
      (if e.title = [] then [] else [(e.title, e.author)]) := by
  by_cases ht : e.title = [] <;>
    by_cases hs : (lookup e.title e.author).success = true <;>
      by_cases hf : (lookup e.title e.author).found.getD false = true <;>
        simp [bibEntryOut, bibVerifiedPred, isMissingTitle, ht, hs, hf, List.countP_cons]

/-- The structural loop counts totals, verified entries, missing titles and
queries exactly. -/
theorem bibLoopR_spec (α : Type) (lookup : List Char → List Char → SearchResult α) :
    ∀ (entries : List BibEntry),
      (bibLoopR α lookup entries).2.2.1 = entries.length ∧
      (bibLoopR α lookup entries).2.1 =
        (entries.filter (bibVerifiedPred α lookup)).length ∧
      ((bibLoopR α lookup entries).1.countP isMissingTitle) =
        (entries.filter (fun e => decide (e.title = []))).length ∧
      (bibLoopR α lookup entries).2.2.2 =
        (entries.filter (fun e => decide (e.title ≠ []))).map
          (fun e => (e.title, e.author)) := by
  intro entries
  induction entries with
  | nil => simp [bibLoopR]
  | cons e rest ih =>
    obtain ⟨h1, h2, h3, h4⟩ := ih
    obtain ⟨g1, g2, g3⟩ := bibEntryOut_cases α lookup e
    refine ⟨?_, ?_, ?_, ?_⟩
    · simp [bibLoopR, h1]; omega
    · simp only [bibLoopR, List.filter_cons]
      by_cases hp : bibVerifiedPred α lookup e = true <;> simp [hp, g2, h2] at g1 ⊢ <;> omega
    · simp only [bibLoopR, List.countP_append, g2, h3, List.filter_cons]
      by_cases ht : e.title = []
      · simp [ht]; omega
      · simp [ht]
    · simp only [bibLoopR, g3, h4, List.filter_cons]
      by_cases ht : e.title = [] <;> simp [ht]

/-- Claim C7: in `verify_bib_references` every parsed entry increments
`total_count`; a title-less entry contributes exactly one missing-title
issue and sends no lookup query; `verified_count` counts exactly the
entries whose lookup succeeds with `found` true; and `verified_count ≤
total_count` on every input. -/
theorem bib_counts_spec (α : Type) (lookup : List Char → List Char → SearchResult α)
    (entries : List BibEntry) :
    (verify_bib_references α (BibFile.parsed entries) lookup).total_count =
        entries.length ∧
      (verify_bib_references α (BibFile.parsed entries) lookup).verified_count =
        (entries.filter (bibVerifiedPred α lookup)).length ∧
      ((verify_bib_references α (BibFile.parsed entries) lookup).issues.countP
          isMissingTitle) =
        (entries.filter (fun e => decide (e.title = []))).length ∧
      bibLookupTrace α (BibFile.parsed entries) lookup =
        (entries.filter (fun e => decide (e.title ≠ []))).map
          (fun e => (e.title, e.author)) ∧
      ∀ (bib : BibFile),
        (verify_bib_references α bib lookup).verified_count ≤
          (verify_bib_references α bib lookup).total_count := by
  obtain ⟨h1, h2, h3, h4⟩ := bibLoopR_spec α lookup entries
  have hfold := bibLoop_eq α lookup entries ([], 0, 0, [])
  refine ⟨?_, ?_, ?_, ?_, ?_⟩
  · simp [verify_bib_references, bibLoop, hfold, h1]
  · simp [verify_bib_references, bibLoop, hfold, h2]
  · simp [verify_bib_references, bibLoop, hfold, h3]
  · simp [bibLookupTrace, bibLoop, hfold, h4]
  · intro bib
    cases bib with
    | missing p => simp [verify_bib_references]
    | unreadable e => simp [verify_bib_references]
    | parsed es =>
      obtain ⟨k1, k2, _, _⟩ := bibLoopR_spec α lookup es
      have hf2 := bibLoop_eq α lookup es ([], 0, 0, [])
      simp [verify_bib_references, bibLoop, hf2, k1, k2]
      exact List.length_filter_le _ _

/-! ## The stereotype analyzer's deduplication (claim C8) -/

/-- The affected-paragraph count accumulated by the loop equals the count
of paragraphs with at least one match: each paragraph contributes at most
(and exactly) its indicator, however many phrases match inside it. -/
theorem stereoFold_count : ∀ (paras : List (List Char)) (acc : List (List Char) × Nat),
    (paras.foldl stereoStep acc).2 = acc.2 + paras.countP paraHasStereo := by
  intro paras
  induction paras with
  | nil => intro acc; simp
  | cons p rest ih =>
    intro acc
    simp only [List.foldl_cons, ih, stereoStep, List.countP_cons]
    by_cases hp : paraHasStereo p = true
    · simp [hp]; omega
    · simp [hp]

/-- Append an element only when absent: the canonical step of a
first-seen-order deduplication. -/
def dedupAppend (f : List (List Char)) (w : List Char) : List (List Char) :=
  if w ∈ f then f else f ++ [w]

/-- First-seen-order deduplication of a stream: keeps exactly the first
occurrence of each element, in order of first appearance. -/
def firstSeen (l : List (List Char)) : List (List Char) :=
  l.foldl dedupAppend []

/-- The expressions one paragraph offers to the found list, in the
source's scan order: the matched phrases in `stereotype_words` order, then
the description of the first matching bold pattern. -/
def paraExprs (para : List Char) : List (List Char) :=
  stereotype_words.filter (fun w => containsSub w para) ++ (paraBoldDesc para).toList

/-- One guarded append of the source's word loop is the first-seen step on
the matched words. -/
theorem wordStep_eq (para : List Char) (f : List (List Char)) (w : List Char) :
    (if containsSub w para && decide (w ∉ f) then f ++ [w] else f) =
      if containsSub w para then dedupAppend f w else f := by
  by_cases hc : containsSub w para = true <;> by_cases hw : w ∈ f <;>
    simp [hc, hw, dedupAppend]

/-- The word stage of one paragraph is the first-seen fold over the
paragraph's matched phrases. -/
theorem wordFold_eq_dedup (para : List Char) :
    ∀ (ws : List (List Char)) (f : List (List Char)),
      ws.foldl (fun f w => if containsSub w para && decide (w ∉ f) then f ++ [w] else f) f =
        (ws.filter (fun w => containsSub w para)).foldl dedupAppend f := by
  intro ws
  induction ws with
  | nil => intro f; rfl
  | cons w rest ih =>
    intro f
    simp only [List.foldl_cons, List.filter_cons]
    rw [wordStep_eq]
    by_cases hc : containsSub w para = true
    · rw [if_pos hc, if_pos hc, List.foldl_cons]
      exact ih (dedupAppend f w)
    · rw [if_neg hc, if_neg hc]
      exact ih f

/-- The bold stage of one paragraph is the first-seen fold over the (at
most one) matching pattern description. -/
theorem boldStage_eq (para : List Char) (f : List (List Char)) :
    (match paraBoldDesc para with
     | some d => if decide (d ∈ f) then f else f ++ [d]
     | none => f) =
      ((paraBoldDesc para).toList).foldl dedupAppend f := by
  cases hb : paraBoldDesc para <;> simp [dedupAppend]

/-- One loop step extends the found list by the first-seen fold over the
paragraph's expression stream. -/
theorem stereoStep_found (acc : List (List Char) × Nat) (p : List Char) :
    (stereoStep acc p).1 = (paraExprs p).foldl dedupAppend acc.1 := by
  simp only [stereoStep, paraExprs, List.foldl_append]
  rw [wordFold_eq_dedup p stereotype_words acc.1]
  rw [boldStage_eq]

/-- The whole loop's found list is the first-seen fold over the
concatenated per-paragraph expression streams. -/
theorem stereoFold_found : ∀ (paras : List (List Char)) (acc : List (List Char) × Nat),
    (paras.foldl stereoStep acc).1 =
      (paras.foldr (fun p l => paraExprs p ++ l) []).foldl dedupAppend acc.1 := by
  intro paras
  induction paras with
  | nil => intro acc; rfl
  | cons p rest ih =>
    intro acc
    simp only [List.foldl_cons, List.foldr_cons]
    rw [ih, stereoStep_found, List.foldl_append]

/-- Membership in a first-seen fold: exactly the initial elements and the
elements of the stream. -/
theorem mem_dedupFold : ∀ (l : List (List Char)) (f : List (List Char)) (w : List Char),
    w ∈ l.foldl dedupAppend f ↔ w ∈ f ∨ w ∈ l := by
  intro l
  induction l with
  | nil => intro f w; simp
  | cons x rest ih =>
    intro f w
    rw [List.foldl_cons, ih]
    simp only [dedupAppend, List.mem_cons]
    by_cases hx : x ∈ f
    · simp only [if_pos hx]
      have hwx : w = x → w ∈ f := fun h => by rw [h]; exact hx
      tauto
    · simp only [if_neg hx, List.mem_append, List.mem_singleton]
      tauto

/-- A first-seen fold from a duplicate-free list stays duplicate-free. -/
theorem nodup_dedupFold : ∀ (l : List (List Char)) (f : List (List Char)),
    f.Nodup → (l.foldl dedupAppend f).Nodup := by
  intro l
  induction l with
  | nil => intro f hf; exact hf
  | cons x rest ih =>
    intro f hf
    rw [List.foldl_cons]
    apply ih
    simp only [dedupAppend]
    split
    · exact hf
    · rename_i hx
      rw [List.nodup_append]
      refine ⟨hf, List.nodup_singleton x, ?_⟩
      intro a ha ha2
      rw [List.mem_singleton] at ha2
      subst ha2
      exact hx ha

/-- The single-paragraph boilerplate sentence of the claim. -/
def twoPhraseDoc : List Char :=
  "首先，我们提出了一个新方法。其次，我们验证了这个方法。".data

/-- Claim C8: in `verify_stereotype_content` a paragraph counts once toward
`affected_paragraphs` no matter how many phrases or bold patterns match in
it (the count equals the number of matching paragraphs, hence is at most
`total_paragraphs`); `found_expressions` is exactly the first-seen-order
deduplication of the per-paragraph expression streams — so every matched
phrase or pattern description appears, each exactly once (`Nodup`, and the
membership equivalence), in first-seen order; and on the claim's
single-paragraph two-phrase sentence the result is
`affected_paragraphs = 1` with the two phrases in first-seen order. -/
theorem stereotype_dedup_spec (content : List Char) :
    ((verify_stereotype_content content).affected_paragraphs =
        (stereoParas content).countP paraHasStereo ∧
      (verify_stereotype_content content).affected_paragraphs ≤
        (verify_stereotype_content content).total_paragraphs ∧
      (verify_stereotype_content content).found_expressions =
        firstSeen ((stereoParas content).foldr (fun p l => paraExprs p ++ l) []) ∧
      (verify_stereotype_content content).found_expressions.Nodup ∧
      (∀ w, w ∈ (verify_stereotype_content content).found_expressions ↔
        ∃ p, p ∈ stereoParas content ∧ w ∈ paraExprs p)) ∧
    (verify_stereotype_content twoPhraseDoc).affected_paragraphs = 1 ∧
    (verify_stereotype_content twoPhraseDoc).found_expressions =
      ["首先，".data, "其次，".data] := by
  refine ⟨⟨?_, ?_, ?_, ?_, ?_⟩, ?_, ?_⟩
  · simp [verify_stereotype_content, stereoFold_count]
  · simp only [verify_stereotype_content]
    rw [stereoFold_count]
    simpa using List.countP_le_length _
  · simp only [verify_stereotype_content, firstSeen]
    rw [stereoFold_found]
  · simp only [verify_stereotype_content]
    rw [stereoFold_found]
    exact nodup_dedupFold _ _ List.nodup_nil
  · intro w
    simp only [verify_stereotype_content]
    rw [stereoFold_found, mem_dedupFold]
    simp [mem_foldr_flat]
  · decide
  · decide

/-! ## The image analyzer's first-failing-check rule (claim C9) -/

/-- Claim C9: `verify_images` emits at most one issue per extracted image —
the issues list is exactly the `filterMap` of the per-image first-failing
check, so its length is bounded by `images_found` — and an image whose
target starts with `https://` is classified as a network link (never
additionally as relative or missing), as the concrete single-image
document confirms. -/
theorem images_single_issue_spec (ex : List Char → Bool) (content : List Char) :
    (verify_images ex content).issues =
        (findImages content).filterMap (fun au => imageIssue ex au.1 au.2) ∧
      (verify_images ex content).issues.length ≤ (verify_images ex content).images_found ∧
      (∀ alt url, "https://".data.isPrefixOf url = true →
        imageIssue ex alt url = some (ImgIssue.networkLink alt url)) ∧
      (verify_images (fun _ => false) ("![web](https://example.com/image.png)".data)).issues =
        [ImgIssue.networkLink "web".data "https://example.com/image.png".data] := by
  have hiss : (verify_images ex content).issues =
      (findImages content).filterMap (fun au => imageIssue ex au.1 au.2) := by
    simp only [verify_images]
    rw [foldl_append_toList]
    simp
  refine ⟨hiss, ?_, ?_, ?_⟩
  · rw [hiss]
    simp only [verify_images]
    exact List.length_filterMap_le _ _
  · intro alt url h
    simp [imageIssue, h]
  · decide

/-- Claim C9 (witness): the network-link classification applied to the
claim's concrete https image. -/
theorem images_single_issue_witness :
    imageIssue (fun _ => false) "web".data "https://example.com/image.png".data =
      some (ImgIssue.networkLink "web".data "https://example.com/image.png".data) :=
  (images_single_issue_spec (fun _ => false) []).2.2.1 "web".data
    "https://example.com/image.png".data (by decide)

/-! ## The code-block analyzer's two passes (claim C10) -/

/-- Line number of a fenced-block issue. -/
def fenceLineOf : CodeIssue → Option Nat
  | CodeIssue.fencedBlock n _ => some n
  | CodeIssue.inlineCode _ => none

/-- Line number of an inline-code issue. -/
def inlineLineOf : CodeIssue → Option Nat
  | CodeIssue.inlineCode n => some n
  | CodeIssue.fencedBlock _ _ => none

/-- Every issue produced by the fence pass is a fenced-block issue for a
line whose trimmed content starts with a triple backtick. -/
theorem fenceFold_mem : ∀ (ls : List (Nat × List Char)) (acc : List CodeIssue × Bool)
    (x : CodeIssue), x ∈ (ls.foldl fenceStep acc).1 →
    x ∈ acc.1 ∨ ∃ il, il ∈ ls ∧ ∃ t, x = CodeIssue.fencedBlock il.1 t ∧
      isFenceLine il.2 = true := by
  intro ls
  induction ls with
  | nil => intro acc x hx; exact Or.inl hx
  | cons il rest ih =>
    intro acc x hx
    simp only [List.foldl_cons] at hx
    rcases ih (fenceStep acc il) x hx with h | ⟨jl, hjl, t, hxe, hf⟩
    · by_cases hp : fenceMarker.isPrefixOf (pyStrip il.2) = true
      · by_cases hb : acc.2 = true
        · simp [fenceStep, hp, hb] at h
          exact Or.inl h
        · simp only [fenceStep, hp, if_true, hb] at h
          simp only [Bool.not_false, if_true, List.mem_append, List.mem_singleton] at h
          rcases h with h | h
          · exact Or.inl h
          · refine Or.inr ⟨il, List.mem_cons_self il rest, _, h, ?_⟩
            simpa [isFenceLine] using hp
      · simp [fenceStep, hp] at h
        exact Or.inl h
    · exact Or.inr ⟨jl, List.mem_cons_of_mem il hjl, t, hxe, hf⟩

/-- Every issue produced by the inline pass for a line is the inline issue
of that line, and the line is not a fence line. -/
theorem inline_mem (il : Nat × List Char) (x : CodeIssue) (hx : x ∈ inlineIssuesFor il) :
    x = CodeIssue.inlineCode il.1 ∧ isFenceLine il.2 = false := by
  simp only [inlineIssuesFor] at hx
  split at hx
  · rename_i hcond
    simp only [Bool.and_eq_true, Bool.not_eq_true'] at hcond
    split at hx
    · simp at hx
      exact ⟨hx, hcond.2⟩
    · simp at hx
  · simp at hx

/-- Claim C10: in `verify_code_blocks` no line number is cited by both a
fenced-block issue and an inline-code issue — a line whose trimmed content
starts with a triple backtick is excluded from the inline pass, so the two
line-number sets are disjoint. -/
theorem code_blocks_line_sets_disjoint (content : List Char) :
    ((verify_code_blocks content).issues.filterMap fenceLineOf) ∩
      ((verify_code_blocks content).issues.filterMap inlineLineOf) = [] := by
  rw [List.eq_nil_iff_forall_not_mem]
  intro n hn
  rw [List.mem_inter_iff] at hn
  obtain ⟨hnf, hni⟩ := hn
  simp only [List.mem_filterMap] at hnf hni
  obtain ⟨x, hxmem, hxline⟩ := hnf
  obtain ⟨y, hymem, hyline⟩ := hni
  have hx : ∃ t, x = CodeIssue.fencedBlock n t := by
    cases x with
    | fencedBlock m t => simp [fenceLineOf] at hxline; exact ⟨t, by rw [hxline]⟩
    | inlineCode m => simp [fenceLineOf] at hxline
  have hy : y = CodeIssue.inlineCode n := by
    cases y with
    | fencedBlock m t => simp [inlineLineOf] at hyline
    | inlineCode m => simp [inlineLineOf] at hyline; rw [hyline]
  obtain ⟨t, rfl⟩ := hx
  subst hy
  simp only [verify_code_blocks] at hxmem hymem
  rw [foldl_append_flat] at hxmem hymem
  rw [List.mem_append] at hxmem hymem
  have hxf : ∃ il, il ∈ enumLines content ∧ n = il.1 ∧ isFenceLine il.2 = true := by
    rcases hxmem with h | h
    · rcases fenceFold_mem (enumLines content) ([], false) _ h with h0 | ⟨il, hil, t2, he, hf⟩
      · simp at h0
      · exact ⟨il, hil, by injection he with h1 h2, hf⟩
    · rw [mem_foldr_flat] at h
      obtain ⟨il, hil, hmem⟩ := h
      have := inline_mem il _ hmem
      simp at this
  have hyf : ∃ il, il ∈ enumLines content ∧ n = il.1 ∧ isFenceLine il.2 = false := by
    rcases hymem with h | h
    · rcases fenceFold_mem (enumLines content) ([], false) _ h with h0 | ⟨il, hil, t2, he, hf⟩
      · simp at h0
      · simp at he
    · rw [mem_foldr_flat] at h
      obtain ⟨il, hil, hmem⟩ := h
      obtain ⟨he, hf⟩ := inline_mem il _ hmem
      injection he with h1
      exact ⟨il, hil, h1, hf⟩
  obtain ⟨⟨n1, l1⟩, h1mem, h1eq, h1f⟩ := hxf
  obtain ⟨⟨n2, l2⟩, h2mem, h2eq, h2f⟩ := hyf
  simp only at h1eq h2eq h1f h2f
  subst h1eq
  subst h2eq
  have : l1 = l2 := by
    apply enumFrom_functional (splitOnNl content) 1 n l1 l2
    · simpa [enumLines] using h1mem
    · simpa [enumLines] using h2mem
  rw [this] at h1f
  rw [h1f] at h2f
  simp at h2f

end PaperVerification
